import Mathlib

/-!
# Verification of the `well_posed_problems` concept engine

A shallow embedding of the concept-graph engine of the repository
(`definer/concept.py`, `definer_c/interpreter.py`,
`definer_c/python_definition.py`) together with proofs and refutations of
the specification's claims about it.

Conventions of the embedding:
* Python dictionaries (the `Context` class) become association lists in
  which a key occurs at most once; membership / item access is
  `List.lookup`, and item assignment is `dictInsert` (replace or append).
* Python's dynamically typed values become the `Value` inductive.
* Python exceptions become `Except` results; a code path that would raise
  (`RuntimeError`, `NameError`, `TypeError`) is an `.error` value.
* Object identity is irrelevant for the purely functional algorithms
  (lookup, matching, definitions), which are modelled on a value-level
  `Concept` tree.  The aliasing behaviour of `ConceptBase.__init__`'s
  mutable default `context = Context()` argument is modelled separately
  with an explicit heap of contexts (`CtxHeap`, `ConceptObj`).
-/

namespace WellPosed

/-- From `concept.py`, class `Representation`: a raw value (modelled as a
    string, since every use renders it as text) together with a priority
    level. -/
structure Representation where
  raw : String
  level : Nat
deriving Repr, DecidableEq

/-- `Representation.LEVEL_HUMAN_SEMMANTICS` -/
def Representation.LEVEL_HUMAN_SEMMANTICS : Nat := 50
/-- `Representation.LEVEL_INPUT_MORPHISM` -/
def Representation.LEVEL_INPUT_MORPHISM : Nat := 30
/-- `Representation.LEVEL_SYSTEM_INFORMATION` -/
def Representation.LEVEL_SYSTEM_INFORMATION : Nat := 10
/-- `Representation.LEVEL_IDENTIFIER` -/
def Representation.LEVEL_IDENTIFIER : Nat := 5
/-- `Representation.LEVEL_UNKNOWN` -/
def Representation.LEVEL_UNKNOWN : Nat := 0

/-- `Representation.human_friendly`: render `raw` and wrap it in `[[...]]`
    when it contains a space character (`if " " in s`, substring search
    for the one-character string, i.e. character containment). -/
def Representation.human_friendly (r : Representation) : String :=
  if r.raw.data.contains ' ' then "[[" ++ r.raw ++ "]]" else r.raw

mutual

/-- From `concept.py`, class `ConceptBase`: a concept has an identifier, a
    `Context` (a dictionary from identifier strings to values), an ordered
    list of `Representation`s and an ordered list of constituent
    (children) concepts.  The `parent_concept` back reference is not part
    of the value-level tree; the algorithms verified here
    (`lookup_bindings`, `possible_definition`, the matching engine) never
    read it. -/
inductive Concept : Type where
  | mk (identifier : Nat) (context : List (String × Value))
       (representations : List Representation) (constituent_concepts : List Concept)

/-- A dynamically typed Python value as stored in a `Context` or produced
    by the engine: strings, concepts, definitions, lists of concepts
    (e.g. the `args` binding of `CommandConcept`). -/
inductive Value : Type where
  | str (s : String)
  | concept (c : Concept)
  | defn (d : Defn)
  | concepts (cs : List Concept)

/-- From `concept.py` / `python_definition.py`: the definition classes.
    * `base` is `DefinitionBase(concept, source)`;
    * `group` is `GroupPossibleDefinition(concept, inner_definitions)`
      (the inner definitions are whatever `possible_definition` returned
      for the constituents, hence `Value`s);
    * `python` is `PythonDefinition(concept, source)` whose cached
      `free_vars` field is `None` exactly when the source failed to
      parse. -/
inductive Defn : Type where
  | base (concept : Concept) (source : Option String)
  | group (concept : Concept) (inner_definitions : List Value)
  | python (concept : Concept) (source : String) (free_vars : Option (List String))

end

/-- Accessor: the `identifier` field of a concept. -/
def Concept.identifier : Concept → Nat
  | .mk i _ _ _ => i

/-- Accessor: the `context` field of a concept. -/
def Concept.context : Concept → List (String × Value)
  | .mk _ ctx _ _ => ctx

/-- Accessor: the `representations` field of a concept. -/
def Concept.representations : Concept → List Representation
  | .mk _ _ reps _ => reps

/-- Accessor: the `constituent_concepts` field of a concept. -/
def Concept.constituent_concepts : Concept → List Concept
  | .mk _ _ _ cs => cs

instance : Inhabited Value := ⟨.str ""⟩
instance : Inhabited Concept := ⟨.mk 0 [] [] []⟩

/-- `Context.DEFINITION_KEY`, the reserved context slot of a Definition. -/
def DEFINITION_KEY : String := "%%DEFINITION%%"

/-- Python dictionary item assignment `d[k] = v` on the association-list
    model: replace the existing entry for `k`, or append a new one. -/
def dictInsert : List (String × Value) → String → Value → List (String × Value)
  | [], k, v => [(k, v)]
  | (k0, v0) :: rest, k, v =>
      if k0 = k then (k, v) :: rest else (k0, v0) :: dictInsert rest k v

/-- `Context.definition_binding`: `self.get(DEFINITION_KEY, None)`. -/
def definition_binding (ctx : List (String × Value)) : Option Value :=
  ctx.lookup DEFINITION_KEY

/-- From `concept.py`, class `Binding`: a path of concepts visited, the
    identifier looked up, and the bound value. -/
structure Binding where
  path : List Concept
  identifier : String
  value : Value

mutual

/-- `ConceptBase.lookup_bindings(identifier, path=[])`: if `identifier`
    is in this concept's own context, return exactly one binding for it
    (own bindings shadow everything below); otherwise concatenate the
    recursive lookups over all constituents, in order, with `self`
    appended to the path. -/
def lookup_bindings (c : Concept) (identifier : String)
    (path : List Concept := []) : List Binding :=
  match c with
  | .mk i ctx reps cs =>
    match ctx.lookup identifier with
    | some v => [⟨path ++ [.mk i ctx reps cs], identifier, v⟩]
    | none => lookup_bindings_children cs identifier (path ++ [.mk i ctx reps cs])

/-- The `for c in self.constituent_concepts: bindings.extend(...)` loop of
    `lookup_bindings`. -/
def lookup_bindings_children : List Concept → String → List Concept → List Binding
  | [], _, _ => []
  | c :: cs, i, p => lookup_bindings c i p ++ lookup_bindings_children cs i p

end

/-- `ConceptBase.bind(identifier, value)`: set `context[identifier]`,
    silently overwriting (last bind wins). -/
def Concept.bind (c : Concept) (identifier : String) (value : Value) : Concept :=
  match c with
  | .mk i ctx reps cs => .mk i (dictInsert ctx identifier value) reps cs

/-! ## Definition / well-definedness engine
(`concept.py` classes `DefinitionBase`, `GroupPossibleDefinition`, the
`NotWellDefined*` hierarchy, and `definer_c/python_definition.py`'s
`PythonDefinition`). -/

mutual

/-- `ConceptBase.possible_definition`: return the definition bound in the
    context if there is one; for a childless concept return a degenerate
    `DefinitionBase` with `source = None`; otherwise wrap the constituents'
    possible definitions in a `GroupPossibleDefinition`
    (via `_group_possible_definition`).  Python returns the bound context
    value unchecked, hence the `Value` result type. -/
def possible_definition (c : Concept) : Value :=
  match c with
  | .mk i ctx reps cs =>
    match definition_binding ctx with
    | some d => d
    | none =>
      if cs.isEmpty then .defn (.base (.mk i ctx reps cs) none)
      else .defn (.group (.mk i ctx reps cs) (possible_definition_children cs))

/-- The `for c in self.constituent_concepts: defs.append(...)` loop of
    `possible_definition`. -/
def possible_definition_children : List Concept → List Value
  | [] => []
  | c :: cs => possible_definition c :: possible_definition_children cs

end

/-- The `NotWellDefined` diagnostic hierarchy of `concept.py`:
    `conceptUndefined` is `NotWellDefinedConcept`, `missingBinding` is
    `NotWellDefinedMissingBinding`, `ambiguousBinding` is
    `NotWellDefinedAmbiguousBinding`, and `sourceBroken` is
    `NotWellDefinedSyntaxError` (raised source-parse failure). -/
inductive NWD : Type where
  | conceptUndefined (concept : Concept)
  | missingBinding (binding_name : String)
  | ambiguousBinding (binding_name : String) (bindings : List Binding)
  | sourceBroken

/-- The `for v in self.free_vars` loop of
    `PythonDefinition.get_not_well_defined`: look each free variable up
    from the owning concept; fewer than one binding appends a
    missing-binding diagnostic, more than one an ambiguous-binding
    diagnostic. -/
def collect_free_var_nwds (c : Concept) : List String → List NWD
  | [] => []
  | v :: vs =>
    let binds := lookup_bindings c v []
    (if binds.length < 1 then [NWD.missingBinding v]
     else if binds.length > 1 then [NWD.ambiguousBinding v binds]
     else []) ++ collect_free_var_nwds c vs

/-- `get_not_well_defined` across the definition classes:
    * `DefinitionBase.get_not_well_defined` returns a single
      `NotWellDefinedConcept` for its concept;
    * `GroupPossibleDefinition` does not override it, so a group
      definition inherits exactly that behaviour;
    * `PythonDefinition.get_not_well_defined` returns a single
      syntax-error diagnostic when `free_vars` is `None` (unparseable
      source) and otherwise the per-free-variable diagnostics. -/
def get_not_well_defined : Defn → List NWD
  | .base c _ => [NWD.conceptUndefined c]
  | .group c _ => [NWD.conceptUndefined c]
  | .python c _ free_vars =>
    match free_vars with
    | none => [NWD.sourceBroken]
    | some vs => collect_free_var_nwds c vs

/-- `DefinitionBase.is_well_defined`:
    `len(self.get_not_well_defined()) == 0`. -/
def is_well_defined (d : Defn) : Bool :=
  (get_not_well_defined d).length == 0

/-- `PythonDefinition.__init__`: stores the concept and source and caches
    `free_vars = self._compute_free_variables()`.
    `_compute_free_variables` parses the source with Python's `symtable`
    module and collects the top-level names that are free or global,
    returning `None` on any parse failure; the scope analyzer itself is
    outside this repository, so it is abstracted as the `analyze`
    parameter (`none` = the source is unparseable, `some vs` = the
    top-level free/global names in order). -/
def PythonDefinition.init (analyze : String → Option (List String))
    (concept : Concept) (source : String) : Defn :=
  .python concept source (analyze source)

/-! ## Representation-matching engine (`concept.py`). -/

/-- The dynamically typed structure produced by
    `fully_expand_representations`: a Python list (`choice`, an OR over
    alternatives), a Python tuple (`seq`, a structural constraint with one
    element per child), or a plain string (`atom`, an equality
    constraint).  The same type also serves for the heterogeneous
    list-of-strings-or-lists values flowing through
    `flatten_fully_expanded_representations` (a nested Python list is a
    `choice`). -/
inductive ExpandedRep : Type where
  | atom (s : String)
  | choice (xs : List ExpandedRep)
  | seq (xs : List ExpandedRep)

/-- `isinstance(x, (list, tuple))` is false: `x` is an atom. -/
def ExpandedRep.isAtom : ExpandedRep → Bool
  | .atom _ => true
  | _ => false

/-- `isinstance(x, list)`. -/
def ExpandedRep.isList : ExpandedRep → Bool
  | .choice _ => true
  | _ => false

/-- `isinstance(x, tuple)`. -/
def ExpandedRep.isTuple : ExpandedRep → Bool
  | .seq _ => true
  | _ => false

mutual

/-- `fully_expand_representations(c)`: a list (choice) of the
    `human_friendly()` strings of the concept's representations, with one
    extra alternative — the tuple of the recursively expanded
    constituents — appended when the concept has children. -/
def fully_expand_representations (c : Concept) : ExpandedRep :=
  match c with
  | .mk _ _ reps cs =>
    .choice ((reps.map (fun r => .atom r.human_friendly)) ++
      (if cs.isEmpty then [] else [.seq (fully_expand_representations_children cs)]))

/-- The `for c0 in c.constituent_concepts` loop of
    `fully_expand_representations`. -/
def fully_expand_representations_children : List Concept → List ExpandedRep
  | [] => []
  | c :: cs =>
      fully_expand_representations c :: fully_expand_representations_children cs

end

mutual

/-- `any_rep_match(expanded_reps, c)`: a tuple must have the same arity as
    the concept's constituents and match them positionally; a list
    matches when any alternative matches; a string matches when any of
    the concept's representations renders to exactly that string. -/
def any_rep_match (expanded_reps : ExpandedRep) (c : Concept) : Bool :=
  match expanded_reps, c with
  | .seq ereps, .mk _ _ _ cs =>
      if ereps.length == cs.length then any_rep_match_zip ereps cs else false
  | .choice ereps, c => any_rep_match_choice ereps c
  | .atom s, .mk _ _ reps _ =>
      reps.any (fun r => s == r.human_friendly)

/-- The `for erep, c0 in zip(expanded_reps, c.constituent_concepts)` loop
    of the tuple branch of `any_rep_match` (the arity was already checked,
    but like `zip` this stops at the shorter list). -/
def any_rep_match_zip : List ExpandedRep → List Concept → Bool
  | e :: es, c :: cs => any_rep_match e c && any_rep_match_zip es cs
  | _, _ => true

/-- The `for erep in expanded_reps` loop of the list branch of
    `any_rep_match`. -/
def any_rep_match_choice : List ExpandedRep → Concept → Bool
  | [], _ => false
  | e :: es, c => any_rep_match e c || any_rep_match_choice es c

end

/-- `itertools.product(*child_flats)`: all combinations, first factor
    varying slowest, each combination a list with one element per
    factor. -/
def listProd {α : Type} : List (List α) → List (List α)
  | [] => [[]]
  | l :: ls => l.flatMap (fun x => (listProd ls).map (fun p => x :: p))

mutual

/-- `flatten_fully_expanded_representations(expanded_reps, current_path=[],
    acum=[])`, transcribed branch by branch:
    * an atom raises `RuntimeError`;
    * a list with only atom elements returns `[expanded_reps]` (without
      touching `acum`);
    * a tuple flattens each child with fresh `current_path`/`acum`
      arguments, then appends to `acum` one entry per element of the
      cartesian product of the children's flats — `current_path +
      list(p)`, each element of `p` being itself a flat path (a Python
      list, hence a `choice` here) — and returns `acum`;
    * a mixed list first raises if it contains a nested list, then
      flattens the atom elements as one flat path and each tuple element
      in order, appends each resulting path (prefixed by `current_path`)
      to `acum`, and returns `acum`.
    The recursive call `flatten_fully_expanded_representations(atoms, [],
    [])` of the mixed branch always returns `[atoms]` through the
    all-atoms branch, because `atoms` keeps exactly the non-list,
    non-tuple elements; it is transcribed as the literal
    `[xs.filter ExpandedRep.isAtom]`, and the lemma
    `flatten_all_atoms_eq` below proves this equal to the recursive
    call. -/
def flatten_fully_expanded_representations (expanded_reps : ExpandedRep)
    (current_path : List ExpandedRep := []) (acum : List (List ExpandedRep) := []) :
    Except String (List (List ExpandedRep)) :=
  match expanded_reps with
  | .atom _ => .error "Got atom which flattening expanded reps, should not happen"
  | .seq xs =>
    match flatten_seq_children xs with
    | .error e => .error e
    | .ok child_flats =>
        .ok (acum ++ (listProd child_flats).map
          (fun p => current_path ++ p.map ExpandedRep.choice))
  | .choice xs =>
    if xs.all ExpandedRep.isAtom then .ok [xs]
    else if xs.any ExpandedRep.isList then
      .error "Can not handle nested lists in expanded rep"
    else
      match flatten_tuple_elems xs with
      | .error e => .error e
      | .ok tuple_flats =>
          .ok (acum ++ (([xs.filter ExpandedRep.isAtom] ++ tuple_flats).map
            (fun p => current_path ++ p)))

/-- The `for x in expanded_reps` loop of the tuple branch: flatten each
    child with fresh `current_path=[]`, `acum=[]`, collecting the
    per-child lists of flats (the first raised error propagates). -/
def flatten_seq_children :
    List ExpandedRep → Except String (List (List (List ExpandedRep)))
  | [] => .ok []
  | x :: xs =>
    match flatten_fully_expanded_representations x [] [], flatten_seq_children xs with
    | .error e, _ => .error e
    | .ok _, .error e => .error e
    | .ok r, .ok rs => .ok (r :: rs)

/-- The `for trep in tuples` loop of the mixed branch: flatten each tuple
    element of the list in order (skipping non-tuples, which is what the
    `tuples = filter(...)` selection does) and concatenate
    (`child_flats.extend`) the results. -/
def flatten_tuple_elems :
    List ExpandedRep → Except String (List (List ExpandedRep))
  | [] => .ok []
  | x :: xs =>
    if x.isTuple then
      match flatten_fully_expanded_representations x [] [], flatten_tuple_elems xs with
      | .error e, _ => .error e
      | .ok _, .error e => .error e
      | .ok r, .ok rs => .ok (r ++ rs)
    else flatten_tuple_elems xs

end

/-- One *top-level* call of `flatten_fully_expanded_representations`
    through its default arguments.  Python evaluates the defaults
    `current_path=[]` and `acum=[]` once, at function-definition time, so
    every top-level call receives the same two list objects;
    `current_path` is never mutated, but the branches that `acum.append`
    and `return acum` leave their result in the shared default `acum`.
    `st` is the contents of that shared list when the call starts; the
    returned state is its contents afterwards (unchanged when the call
    raises or returns through the all-atoms branch, which never touches
    `acum`). -/
def flatten_call (expanded_reps : ExpandedRep) (st : List (List ExpandedRep)) :
    Except String (List (List ExpandedRep)) × List (List ExpandedRep) :=
  match flatten_fully_expanded_representations expanded_reps [] st with
  | .error e => (.error e, st)
  | .ok r =>
    (.ok r, match expanded_reps with
            | .choice xs => if xs.all ExpandedRep.isAtom then st else r
            | _ => r)

/-- A Python exception value observed from a fallible code path. -/
inductive PyError : Type where
  | nameError (msg : String)
  | typeError (msg : String)
  | runtimeError (msg : String)
deriving Repr, DecidableEq

/-- The per-concept range marker of a `SubstructureMatch`: either the
    class constant `WHOLE_CONCEPT = "+whole+"`, or a
    `(start index, end index)` tuple for a contiguous constituent
    range. -/
inductive ConstituentRange : Type where
  | whole
  | part (start_index stop_index : Nat)
deriving Repr, DecidableEq

/-- From `concept.py`, class `SubstructureMatch`: the ordered matched
    concepts and, positionally, each one's constituent range. -/
structure SubstructureMatch where
  concepts : List Concept
  constituent_ranges : List ConstituentRange

/-- `any_rep_substructure_match(expanded_reps, c,
    include_child_submatches=True)`.  The function first records a
    whole-concept `SubstructureMatch` when `any_rep_match` succeeds, and
    returns it if child submatches were not requested.  On every other
    path it executes
    `flattened_expanded_reps = flatten_fully_expanded_representations(expanded_reps)`
    (through the shared default `acum`, hence the threaded `st`) and then
    `flattened_c = flatten_fully_expanded_reps(...)` — and the name
    `flatten_fully_expanded_reps` is defined nowhere in the repository, so
    this line always raises `NameError`.  The remainder of the function
    body (lines 359-401 of `concept.py`) is a verbatim copy of
    `any_rep_match` returning `True`/`False` and is unreachable. -/
def any_rep_substructure_match (st : List (List ExpandedRep))
    (expanded_reps : ExpandedRep) (c : Concept)
    (include_child_submatches : Bool := true) :
    Except PyError (List SubstructureMatch) × List (List ExpandedRep) :=
  let full_match := any_rep_match expanded_reps c
  let res : List SubstructureMatch :=
    if full_match then [⟨[c], [ConstituentRange.whole]⟩] else []
  if full_match && !include_child_submatches then (.ok res, st)
  else
    match flatten_call expanded_reps st with
    | (.error e, st2) => (.error (.runtimeError e), st2)
    | (.ok _, st2) =>
        (.error (.nameError "global name flatten_fully_expanded_reps is not defined"),
         st2)

/-! ## Lifting engine (`definer_c/interpreter.py`). -/

/-- `InterpreterBase._is_liftable_substructure_match(subm)`: count the
    constituent ranges different from `WHOLE_CONCEPT`; liftable when that
    count is zero, or when the match holds exactly one concept. -/
def is_liftable_substructure_match (subm : SubstructureMatch) : Bool :=
  let numNotWhole :=
    subm.constituent_ranges.countP (fun r => !(r == ConstituentRange.whole))
  if numNotWhole == 0 then true
  else if subm.concepts.length == 1 then true
  else false

/-- `InterpreterBase._lift_substructure_match(subm)`.  The guard
    `if not self._is_liftable_substructure_match(subm): return None` is
    intact and runs before any mutation, so a non-liftable match is
    refused with `None` and the graph (`graph`, abstract here) untouched.
    The rest of the body cannot execute: its first statement,
    `if all(map(lambda r: r == SubstructureMatch.WHOLE_CONCEPT),
    subm.constituent_ranges):`, passes a single argument to `map` (a
    `TypeError` in Python 2) and two arguments to `all`; the helpers it
    goes on to use (`concept.ancestors`, `longest_common_prefix`) exist
    nowhere in the repository; and the body is syntactically truncated at
    `parent_c = basic_grammar_concept.BasicGrammarConcept(parent_concept =`
    (lines 347-348), an unclosed call that makes the whole module fail to
    parse.  Reaching past the guard is therefore modelled as an error,
    with the graph still untouched. -/
def lift_substructure_match {σ : Type} (graph : σ) (subm : SubstructureMatch) :
    Except PyError (Option Concept) × σ :=
  if !(is_liftable_substructure_match subm) then (.ok none, graph)
  else (.error (.typeError "map() requires at least two args"), graph)

/-! ## Reference-level model of `ConceptBase.__init__` and `bind`
(`concept.py` lines 454-487 and 571-572).

The `Context` objects live in an explicit heap (`CtxHeap`) and a concept
holds an index into it, because `__init__`'s signature is
`def __init__(self, parent_concept, constituent_concepts,
context = Context(), ...)`: Python evaluates the default `Context()` once,
when `ConceptBase.__init__` is defined, so every construction that does
not pass an explicit context stores a reference to that one shared
`Context` object, modelled as heap index `defaultContextRef`.  (The
identity representations appended by `__init__` and the registration in
the parent's constituent list are omitted here; they do not touch any
context.) -/

/-- The heap of `Context` objects; index 0 is the shared default. -/
abbrev CtxHeap := List (List (String × Value))

/-- The heap index of the one `Context()` object created when
    `ConceptBase.__init__`'s defaults were evaluated. -/
def defaultContextRef : Nat := 0

/-- A concept as a heap object: its context is a reference into the
    `CtxHeap`. -/
inductive ConceptObj : Type where
  | mk (identifier : Nat) (ctxRef : Nat) (constituent_concepts : List ConceptObj)

/-- Accessor: the context reference of a heap-level concept. -/
def ConceptObj.ctxRef : ConceptObj → Nat
  | .mk _ r _ => r

/-- Accessor: the constituents of a heap-level concept. -/
def ConceptObj.constituent_concepts : ConceptObj → List ConceptObj
  | .mk _ _ cs => cs

/-- Read a context out of the heap. -/
def heap_context (h : CtxHeap) (r : Nat) : List (String × Value) :=
  h.getD r []

/-- `ConceptBase.__init__` restricted to its context handling: an
    explicitly supplied context keeps its own heap cell; omitting the
    argument makes the new concept reference the shared default cell
    `defaultContextRef`. -/
def ConceptBase.init (h : CtxHeap) (identifier : Nat)
    (constituent_concepts : List ConceptObj) (context : Option Nat := none) :
    CtxHeap × ConceptObj :=
  match context with
  | some r => (h, .mk identifier r constituent_concepts)
  | none => (h, .mk identifier defaultContextRef constituent_concepts)

/-- `ConceptBase.bind` at heap level: update the context cell the concept
    references. -/
def ConceptObj.bind (h : CtxHeap) (c : ConceptObj) (identifier : String)
    (value : Value) : CtxHeap :=
  h.set c.ctxRef (dictInsert (heap_context h c.ctxRef) identifier value)

/-- A `Binding` whose path holds heap-level concepts. -/
structure BindingObj where
  path : List ConceptObj
  identifier : String
  value : Value

mutual

/-- `ConceptBase.lookup_bindings` at heap level: identical to
    `lookup_bindings`, but the concept's context is read through its heap
    reference. -/
def lookup_bindings_obj (h : CtxHeap) (c : ConceptObj) (identifier : String)
    (path : List ConceptObj := []) : List BindingObj :=
  match c with
  | .mk i r cs =>
    match (heap_context h r).lookup identifier with
    | some v => [⟨path ++ [.mk i r cs], identifier, v⟩]
    | none => lookup_bindings_obj_children h cs identifier (path ++ [.mk i r cs])

/-- The constituent loop of `lookup_bindings_obj`. -/
def lookup_bindings_obj_children (h : CtxHeap) :
    List ConceptObj → String → List ConceptObj → List BindingObj
  | [], _, _ => []
  | c :: cs, i, p =>
      lookup_bindings_obj h c i p ++ lookup_bindings_obj_children h cs i p

end

/-! ## Statement-side definitions and concrete scenario inputs. -/

/-- The concepts, by identifier, that carry a non-whole (i.e. a
    constituent-range) marker in a substructure match — written from the
    words of the specification to formalise "all partial ranges occur
    within a single concept". -/
def nonWholeCarrierIds (m : SubstructureMatch) : List Nat :=
  (m.concepts.zip m.constituent_ranges).filterMap
    (fun p => if p.2 == ConstituentRange.whole then none else some p.1.identifier)

/-- The liftability condition exactly as the specification words it:
    none of the matched ranges are non-whole, or all non-whole ranges
    occur within a single concept. -/
def claim_liftable_condition (m : SubstructureMatch) : Bool :=
  m.constituent_ranges.all (fun r => r == ConstituentRange.whole) ||
  (match nonWholeCarrierIds m with
   | [] => true
   | i :: rest => rest.all (fun j => j == i))

/-- A leaf concept with a single representation `"x"`. -/
def exampleLeaf : Concept := .mk 7 [] [⟨"x", 0⟩] []

/-- A child concept binding `x = "v2"`. -/
def exampleShadowChild : Concept := .mk 2 [("x", Value.str "v2")] [] []

/-- A parent concept binding `x = "v1"` in its own context, with a child
    that also binds `x` (= `"v2"`). -/
def exampleShadowParent : Concept := .mk 1 [("x", Value.str "v1")] [] [exampleShadowChild]

/-- A parent with no own binding for `y` and two children binding `y` to
    distinct values. -/
def exampleSiblingParent : Concept :=
  .mk 1 [] [] [.mk 2 [("y", Value.str "v1")] [] [], .mk 3 [("y", Value.str "v2")] [] []]

/-- A substructure match of two concepts, both with `WHOLE_CONCEPT`
    ranges: liftable, and of the whole-range multi-concept shape that
    `_lift_substructure_match` is supposed to lift. -/
def exampleWholeMatch : SubstructureMatch :=
  ⟨[.mk 1 [] [] [], .mk 2 [] [] []], [ConstituentRange.whole, ConstituentRange.whole]⟩

/-- A substructure match of two concepts in which only the second carries
    a constituent range, so all of its non-whole ranges live in one
    concept. -/
def exampleMixedMatch : SubstructureMatch :=
  ⟨[.mk 1 [] [] [], .mk 2 [] [] []], [ConstituentRange.whole, ConstituentRange.part 0 1]⟩

/-- A substructure match whose non-whole ranges touch two distinct
    concepts. -/
def exampleTwoPartMatch : SubstructureMatch :=
  ⟨[.mk 1 [] [] [], .mk 2 [] [] []],
   [ConstituentRange.part 0 1, ConstituentRange.part 0 1]⟩

/-- An expanded expression with one atom alternative and one structure
    (tuple) alternative, the shape produced for a one-representation
    concept with one child. -/
def exampleMixedRep : ExpandedRep := .choice [.atom "a", .seq [.choice [.atom "b"]]]

/-- The heap at interpreter start: only the shared default `Context()`
    cell, still empty. -/
def demoHeap0 : CtxHeap := [[]]

/-- `A = ConceptBase(parent_concept=None, constituent_concepts=[])` —
    constructed without an explicit context. -/
def demoInitA : CtxHeap × ConceptObj := ConceptBase.init demoHeap0 1 []

/-- `B = ConceptBase(parent_concept=None, constituent_concepts=[])` —
    a second concept, also without an explicit context. -/
def demoInitB : CtxHeap × ConceptObj := ConceptBase.init demoInitA.1 2 []

/-- The heap after `A.bind("x", "v")`. -/
def demoHeapAfterBind : CtxHeap :=
  ConceptObj.bind demoInitB.1 demoInitA.2 "x" (Value.str "v")

/-! ## Helper lemmas. -/

/-- A list all of whose elements are atoms flattens, in any
    `current_path`/`acum` state, to itself as the single flat path: the
    all-atoms branch of `flatten_fully_expanded_representations`. -/
theorem flatten_all_atoms_eq (xs : List ExpandedRep)
    (h : xs.all ExpandedRep.isAtom = true)
    (current_path : List ExpandedRep) (acum : List (List ExpandedRep)) :
    flatten_fully_expanded_representations (.choice xs) current_path acum = .ok [xs] := by
  simp [flatten_fully_expanded_representations, h]

/-- The recursive call `flatten_fully_expanded_representations(atoms, [],
    [])` of the mixed branch returns `[atoms]`: this justifies the
    transcription of that call as the literal
    `[xs.filter ExpandedRep.isAtom]` in the definition above. -/
theorem flatten_filter_atoms_eq (xs : List ExpandedRep)
    (current_path : List ExpandedRep) (acum : List (List ExpandedRep)) :
    flatten_fully_expanded_representations (.choice (xs.filter ExpandedRep.isAtom))
      current_path acum = .ok [xs.filter ExpandedRep.isAtom] :=
  flatten_all_atoms_eq _ (by simp [List.all_eq_true, List.mem_filter]) current_path acum

/-- A concept whose own context binds the identifier returns exactly its
    own binding, whatever lies below it: the shadowing branch of
    `lookup_bindings`. -/
theorem lookup_bindings_own_eq (c : Concept) (x : String) (v : Value)
    (p : List Concept) (h : c.context.lookup x = some v) :
    lookup_bindings c x p = [⟨p ++ [c], x, v⟩] := by
  cases c with
  | mk i ctx reps cs =>
    simp only [Concept.context] at h
    simp [lookup_bindings, h]

/-! ## The claims. -/

/-- C1: if `x` is bound in concept `P`'s own context, `lookup_bindings(P,
    x)` returns exactly one `Binding`, holding `P`'s own value for `x`
    (path `p + [P]`); no binding of any descendant appears, even when a
    child of `P` also binds `x`. -/
theorem lookup_bindings_own_shadow (c : Concept) (x : String) (v : Value)
    (p : List Concept) (h : c.context.lookup x = some v) :
    lookup_bindings c x p = [⟨p ++ [c], x, v⟩] :=
  lookup_bindings_own_eq c x v p h

/-- Witness for C1: the concrete parent of `exampleShadowParent` binds
    `x = "v1"` and its child binds `x = "v2"`; the lookup returns exactly
    the parent's binding. -/
theorem lookup_bindings_own_shadow_witness :
    (Concept.context exampleShadowParent).lookup "x" = some (Value.str "v1") ∧
    lookup_bindings exampleShadowParent "x" [] =
      [⟨[exampleShadowParent], "x", Value.str "v1"⟩] :=
  ⟨rfl, lookup_bindings_own_shadow exampleShadowParent "x" (Value.str "v1") [] rfl⟩

/-- C3: a liftable all-whole-range substructure match over two concepts is
    exactly the case `_lift_substructure_match` is supposed to lift into
    a new concept under the lowest common ancestor — but past its
    liftability guard the function's body cannot execute (truncated
    source, mis-parenthesised `all(map(...))`, undefined helpers), so no
    new concept is ever created or returned. -/
theorem lift_whole_range_match_cannot_execute :
    is_liftable_substructure_match exampleWholeMatch = true ∧
    lift_substructure_match () exampleWholeMatch =
      (.error (.typeError "map() requires at least two args"), ()) :=
  ⟨rfl, rfl⟩

/-- C6: a concept (with nonempty representations, as `ConceptBase.__init__`
    always guarantees by appending the identity representations) always
    matches its own full expansion: the expansion's first alternative is
    the rendering of the concept's first representation, which the atom
    branch of `any_rep_match` accepts. -/
theorem any_rep_match_own_expansion (c : Concept) (h : c.representations ≠ []) :
    any_rep_match (fully_expand_representations c) c = true := by
  cases c with
  | mk i ctx reps cs =>
    simp only [Concept.representations] at h
    cases reps with
    | nil => exact absurd rfl h
    | cons r rs =>
      simp [fully_expand_representations, any_rep_match, any_rep_match_choice]

/-- Witness for C6 at the concrete leaf concept `exampleLeaf`. -/
theorem any_rep_match_own_expansion_witness :
    exampleLeaf.representations ≠ [] ∧
    any_rep_match (fully_expand_representations exampleLeaf) exampleLeaf = true :=
  ⟨by simp [exampleLeaf, Concept.representations],
   any_rep_match_own_expansion exampleLeaf
     (by simp [exampleLeaf, Concept.representations])⟩

/-- C8: a leaf concept without a bound definition gets the degenerate
    `DefinitionBase(concept, source=None)` from `possible_definition`,
    whose `get_not_well_defined` is the nonempty
    `[NotWellDefinedConcept]`, so `is_well_defined` is false: such a
    concept is never well-defined. -/
theorem leaf_no_definition_never_well_defined (i : Nat)
    (ctx : List (String × Value)) (reps : List Representation)
    (h : definition_binding ctx = none) :
    possible_definition (.mk i ctx reps []) = .defn (.base (.mk i ctx reps []) none) ∧
    get_not_well_defined (.base (.mk i ctx reps []) none) =
      [NWD.conceptUndefined (.mk i ctx reps [])] ∧
    is_well_defined (.base (.mk i ctx reps []) none) = false := by
  refine ⟨?_, rfl, rfl⟩
  simp [possible_definition, h]

/-- Witness for C8 at a concrete leaf with empty context. -/
theorem leaf_no_definition_never_well_defined_witness :
    definition_binding ([] : List (String × Value)) = none ∧
    (possible_definition (.mk 7 [] [⟨"x", 0⟩] []) =
        .defn (.base (.mk 7 [] [⟨"x", 0⟩] []) none) ∧
      get_not_well_defined (.base (.mk 7 [] [⟨"x", 0⟩] []) none) =
        [NWD.conceptUndefined (.mk 7 [] [⟨"x", 0⟩] [])] ∧
      is_well_defined (.base (.mk 7 [] [⟨"x", 0⟩] []) none) = false) :=
  ⟨rfl, leaf_no_definition_never_well_defined 7 [] [⟨"x", 0⟩] rfl⟩

/-- C9: the mutable default argument `context = Context()` of
    `ConceptBase.__init__` is evaluated once, so two concepts constructed
    without an explicit context share one `Context` object:
    `A.bind("x", "v")` is then visible from `lookup_bindings` starting at
    the unrelated concept `B`, refuting the claim that a bind on `A`
    changes only `A`'s context. -/
theorem bind_leaks_through_shared_default_context :
    demoInitA.2.ctxRef = demoInitB.2.ctxRef ∧
    lookup_bindings_obj demoHeapAfterBind demoInitB.2 "x" [] =
      [⟨[demoInitB.2], "x", Value.str "v"⟩] :=
  ⟨rfl, rfl⟩

/-- C2: with child submatches requested (the default, and the only way
    the interpreter calls it), `any_rep_substructure_match` never returns
    a list of `SubstructureMatch` values at all: every call raises — the
    expression flattening raises `RuntimeError` on malformed input, and
    otherwise the undefined name `flatten_fully_expanded_reps` raises
    `NameError` — even when a full match was already found, as the
    concrete leaf-concept instance shows. -/
theorem any_rep_substructure_match_always_raises :
    (∀ (st : List (List ExpandedRep)) (e : ExpandedRep) (c : Concept),
       ∃ err : PyError, (any_rep_substructure_match st e c).1 = .error err) ∧
    any_rep_match (fully_expand_representations exampleLeaf) exampleLeaf = true ∧
    (any_rep_substructure_match [] (fully_expand_representations exampleLeaf)
        exampleLeaf).1 =
      .error (.nameError "global name flatten_fully_expanded_reps is not defined") := by
  refine ⟨?_, rfl, rfl⟩
  intro st e c
  rcases hfc : flatten_call e st with ⟨r, st2⟩
  cases r with
  | error m =>
      exact ⟨.runtimeError m, by simp [any_rep_substructure_match, hfc]⟩
  | ok r =>
      exact ⟨.nameError "global name flatten_fully_expanded_reps is not defined",
        by simp [any_rep_substructure_match, hfc]⟩

/-- Counterexample for C4: in `exampleMixedMatch` the only non-whole
    range lives in a single concept, so the claim's condition holds, yet
    `_is_liftable_substructure_match` returns false (it tests
    `len(subm.concepts) == 1`, and the match holds two concepts): the
    claimed equivalence fails at this input. -/
theorem is_liftable_claim_iff_fails :
    ¬ (is_liftable_substructure_match exampleMixedMatch = true ↔
       claim_liftable_condition exampleMixedMatch = true) := by
  decide

/-- C4 (amended): `_is_liftable_substructure_match` returns true iff no
    range is non-whole or the match holds exactly one concept; a match
    whose non-whole ranges touch two distinct concepts is therefore never
    liftable, and `_lift_substructure_match` refuses every non-liftable
    match with `None`, leaving the graph untouched. -/
theorem is_liftable_iff_all_whole_or_single_concept :
    (∀ m : SubstructureMatch,
       is_liftable_substructure_match m = true ↔
         (m.constituent_ranges.all (fun r => r == ConstituentRange.whole) = true ∨
          m.concepts.length = 1)) ∧
    (∀ (m : SubstructureMatch) (i j : Nat),
       i < m.concepts.length → j < m.concepts.length → i ≠ j →
       m.constituent_ranges.getD i ConstituentRange.whole ≠ ConstituentRange.whole →
       m.constituent_ranges.getD j ConstituentRange.whole ≠ ConstituentRange.whole →
       (m.concepts.getD i default).identifier ≠
         (m.concepts.getD j default).identifier →
       is_liftable_substructure_match m = false) ∧
    (∀ (m : SubstructureMatch) (σ : Type) (g : σ),
       is_liftable_substructure_match m = false →
       lift_substructure_match g m = (.ok none, g)) := by
  refine ⟨?_, ?_, ?_⟩
  · intro m
    simp only [is_liftable_substructure_match]
    by_cases hcp : m.constituent_ranges.countP
        (fun r => !(r == ConstituentRange.whole)) = 0
    · have hall : m.constituent_ranges.all
          (fun r => r == ConstituentRange.whole) = true := by
        simp only [List.all_eq_true]
        intro r hr
        have h1 := List.countP_eq_zero.1 hcp r hr
        simpa using h1
      simp [hcp, hall]
    · have hall : ¬ (m.constituent_ranges.all
          (fun r => r == ConstituentRange.whole) = true) := by
        intro hw
        apply hcp
        rw [List.countP_eq_zero]
        intro a ha
        simp [List.all_eq_true.1 hw a ha]
      by_cases hl : m.concepts.length = 1
      · simp [hcp, hl]
      · simp [hcp, hl, hall]
  · intro m i j hi hj hij hri _hrj _hid
    have hlti : i < m.constituent_ranges.length := by
      by_contra hle
      exact hri (List.getD_eq_default _ _ (Nat.le_of_not_lt hle))
    have hmem : m.constituent_ranges.getD i ConstituentRange.whole
        ∈ m.constituent_ranges := by
      rw [List.getD_eq_getElem _ _ hlti]
      exact List.getElem_mem hlti
    have hcp : m.constituent_ranges.countP
        (fun r => !(r == ConstituentRange.whole)) ≠ 0 := by
      intro h0
      rw [List.countP_eq_zero] at h0
      have h1 := h0 _ hmem
      simp only [Bool.not_eq_true, Bool.not_eq_true', Bool.not_eq_false,
        beq_iff_eq] at h1
      exact hri h1
    have hlen : m.concepts.length ≠ 1 := by omega
    simp [is_liftable_substructure_match, hcp, hlen]
  · intro m σ g h
    simp [lift_substructure_match, h]

/-- Witness for C4 (amended) at the concrete match whose non-whole ranges
    touch two distinct concepts: not liftable, and the lift is refused
    without touching the graph. -/
theorem is_liftable_iff_all_whole_or_single_concept_witness :
    is_liftable_substructure_match exampleTwoPartMatch = false ∧
    lift_substructure_match () exampleTwoPartMatch = (.ok none, ()) := by
  have h := is_liftable_iff_all_whole_or_single_concept.2.1 exampleTwoPartMatch 0 1
    (by decide) (by decide) (by decide) (by decide) (by decide) (by decide)
  exact ⟨h, is_liftable_iff_all_whole_or_single_concept.2.2 exampleTwoPartMatch Unit () h⟩

/-- The free-variable loop of `PythonDefinition.get_not_well_defined`
    produces, per name, one missing-binding diagnostic when no binding is
    reachable, one ambiguous-binding diagnostic when more than one is,
    and nothing when exactly one is. -/
theorem collect_free_var_nwds_eq_filterMap (c : Concept) (vs : List String) :
    collect_free_var_nwds c vs = vs.filterMap (fun v =>
      match lookup_bindings c v [] with
      | [] => some (NWD.missingBinding v)
      | [_] => none
      | _ => some (NWD.ambiguousBinding v (lookup_bindings c v []))) := by
  induction vs with
  | nil => rfl
  | cons v vs ih =>
    simp only [collect_free_var_nwds, List.filterMap_cons, ih]
    rcases hb : lookup_bindings c v [] with _ | ⟨b, _ | ⟨b2, bs⟩⟩
    · simp [hb]
    · simp [hb]
    · simp [hb]

/-- C5: a `PythonDefinition` whose source does not parse (the scope
    analyzer, abstracted as `analyze`, returns `None`) yields exactly one
    syntax-error diagnostic and no fault; otherwise each top-level
    free/global name yields one `MissingBinding` diagnostic when it has
    zero reachable bindings from the owning concept, one
    `AmbiguousBinding` diagnostic (carrying the bindings) when it has
    more than one, and no diagnostic when it has exactly one. -/
theorem python_definition_diagnostics (analyze : String → Option (List String))
    (c : Concept) (src : String) :
    get_not_well_defined (PythonDefinition.init analyze c src) =
      match analyze src with
      | none => [NWD.sourceBroken]
      | some vs => vs.filterMap (fun v =>
          match lookup_bindings c v [] with
          | [] => some (NWD.missingBinding v)
          | [_] => none
          | _ => some (NWD.ambiguousBinding v (lookup_bindings c v []))) := by
  cases h : analyze src with
  | none => simp [PythonDefinition.init, get_not_well_defined, h]
  | some vs =>
      simp [PythonDefinition.init, get_not_well_defined, h,
        collect_free_var_nwds_eq_filterMap]

/-- When every constituent has an own binding for `y`, the constituent
    loop of `lookup_bindings` returns exactly one binding per
    constituent, in constituent order. -/
theorem lookup_bindings_children_one_per_child (cs : List Concept) (y : String)
    (p : List Concept)
    (h : ∀ ci ∈ cs, (ci.context.lookup y).isSome = true) :
    lookup_bindings_children cs y p =
      cs.map (fun ci => ⟨p ++ [ci], y, (ci.context.lookup y).getD default⟩) := by
  induction cs with
  | nil => rfl
  | cons ci cs ih =>
    have hci := h ci (List.mem_cons_self ci cs)
    rcases hv : ci.context.lookup y with _ | v
    · rw [hv] at hci
      simp at hci
    · simp only [lookup_bindings_children, List.map_cons]
      rw [lookup_bindings_own_eq ci y v p hv,
        ih (fun x hx => h x (List.mem_cons_of_mem ci hx)), hv]
      simp

/-- C7: for a concept `P` with no own binding for `y` whose children each
    bind `y` in their own contexts, `lookup_bindings(P, y)` returns all
    of the children's bindings, one per child, concatenated in child
    order — children do not shadow one another. -/
theorem lookup_bindings_siblings_no_shadow (c : Concept) (y : String)
    (h0 : c.context.lookup y = none)
    (h1 : ∀ ci ∈ c.constituent_concepts, (ci.context.lookup y).isSome = true) :
    lookup_bindings c y [] =
      c.constituent_concepts.map (fun ci =>
        ⟨[c, ci], y, (ci.context.lookup y).getD default⟩) := by
  cases c with
  | mk i ctx reps cs =>
    simp only [Concept.context] at h0
    simp only [Concept.constituent_concepts] at h1 ⊢
    simp only [lookup_bindings, h0]
    rw [lookup_bindings_children_one_per_child cs y _ h1]
    simp

/-- Witness for C7: the parent of `exampleSiblingParent` has no own `y`
    and two children binding `y` to `"v1"` and `"v2"`; the lookup returns
    both bindings, in child order. -/
theorem lookup_bindings_siblings_no_shadow_witness :
    (Concept.context exampleSiblingParent).lookup "y" = none ∧
    lookup_bindings exampleSiblingParent "y" [] =
      exampleSiblingParent.constituent_concepts.map (fun ci =>
        ⟨[exampleSiblingParent, ci], "y", (ci.context.lookup "y").getD default⟩) ∧
    lookup_bindings exampleSiblingParent "y" [] =
      [⟨[exampleSiblingParent, .mk 2 [("y", Value.str "v1")] [] []], "y", Value.str "v1"⟩,
       ⟨[exampleSiblingParent, .mk 3 [("y", Value.str "v2")] [] []], "y", Value.str "v2"⟩] :=
  ⟨rfl,
   lookup_bindings_siblings_no_shadow exampleSiblingParent "y" rfl (by decide),
   rfl⟩

/-- C10: `flatten_fully_expanded_representations` is not stateless across
    top-level calls: on an input with a tuple alternative the first call
    returns two flat paths and leaves them in the shared default `acum`
    list, so an identical second call returns those two paths again plus
    its own two — the two calls disagree. -/
theorem flatten_repeat_call_accumulates :
    (flatten_call exampleMixedRep []).1 = .ok [[.atom "a"], [.choice [.atom "b"]]] ∧
    (flatten_call exampleMixedRep (flatten_call exampleMixedRep []).2).1 =
      .ok [[.atom "a"], [.choice [.atom "b"]], [.atom "a"], [.choice [.atom "b"]]] ∧
    (flatten_call exampleMixedRep (flatten_call exampleMixedRep []).2).1 ≠
      (flatten_call exampleMixedRep []).1 := by
  refine ⟨rfl, rfl, ?_⟩
  intro hcontra
  rw [show (flatten_call exampleMixedRep []).1 =
        .ok [[.atom "a"], [.choice [.atom "b"]]] from rfl,
      show (flatten_call exampleMixedRep (flatten_call exampleMixedRep []).2).1 =
        .ok [[.atom "a"], [.choice [.atom "b"]], [.atom "a"], [.choice [.atom "b"]]]
        from rfl] at hcontra
  simp at hcontra

end WellPosed
